import Mathlib

/-!
# Verification of the RMUC CV 2026 aim-and-fire pipeline core

Shallow embedding of the domain algorithms of the repository
(`src/calibur/worker/*.cpp`, `src/calibur/usb_communication.cpp`,
`src/unnamed/part_001`) over the reals, together with proofs and
refutations of the specification's claims about them.

Floating-point arithmetic is modelled by exact real arithmetic; machine
integers by `ℤ`/`ℕ`.  Types declared in the repository's `types.hpp`
(absent from the sources; only its users survive) are reconstructed from
the data model in §3 of the specification and marked as such.
-/

set_option autoImplicit false

open Real

namespace Calibur

/-! ## Serial wire format (`src/calibur/usb_communication.cpp:117`)

`USBCommunication::sendData` memcpy's the object representation of two
`float`s into the frame; a `float` is modelled here by its 32-bit IEEE-754
bit pattern (a `ℕ` below `2^32`), which on the little-endian target is
exactly the four bytes written, least significant first. -/

/-- Byte `i` (little-endian) of a 32-bit word. -/
def leByte (w i : ℕ) : ℕ := w / 256 ^ i % 256

/-- The 11-byte TX frame assembled by `sendData`:
header `0xAA`, yaw bits LE, pitch bits LE, fire flag, XOR checksum of the
first ten bytes. -/
def sendData_packet (yawBits pitchBits : ℕ) (fire : Bool) : List ℕ :=
  let body : List ℕ :=
    [0xAA,
     leByte yawBits 0, leByte yawBits 1, leByte yawBits 2, leByte yawBits 3,
     leByte pitchBits 0, leByte pitchBits 1, leByte pitchBits 2, leByte pitchBits 3,
     if fire then 0x01 else 0x00]
  body ++ [body.foldl Nat.xor 0]

/-- Modelled from the spec: no decoder for the TX frame exists under `src/`
(the MCU side consumes it); §6 "Serial wire format" and §8 "Serial framing
round-trip" define it.  Rejects a frame whose header or checksum is wrong,
otherwise reassembles the two little-endian 32-bit words and the fire flag. -/
def decode_frame (frame : List ℕ) : Option (ℕ × ℕ × Bool) :=
  match frame with
  | [h, y0, y1, y2, y3, p0, p1, p2, p3, f, ck] =>
    if h = 0xAA ∧
        ck = [h, y0, y1, y2, y3, p0, p1, p2, p3, f].foldl Nat.xor 0 then
      some (y0 + 256 * y1 + 256 ^ 2 * y2 + 256 ^ 3 * y3,
            p0 + 256 * p1 + 256 ^ 2 * p2 + 256 ^ 3 * p3,
            f == 0x01)
    else
      none
  | _ => none

end Calibur

noncomputable section

open Classical

namespace Calibur

/-! ## Real-arithmetic helpers (`src/calibur/worker/helper.hpp`) -/

/-- Truncation toward zero, the rounding used by C `fmod`. -/
def rtrunc (x : ℝ) : ℤ := if 0 ≤ x then ⌊x⌋ else ⌈x⌉

/-- C/C++ `std::fmod x y`: remainder with the sign of the dividend,
`x - y * trunc (x / y)`. -/
def fmod (x y : ℝ) : ℝ := x - y * (rtrunc (x / y) : ℝ)

/-- Mathematical non-negative remainder `x - y * ⌊x / y⌋`, used to state the
spec's `mod` into `[0, y)`. -/
def rmod (x y : ℝ) : ℝ := x - y * (⌊x / y⌋ : ℝ)

/-- `wrap_pi` from `src/calibur/worker/helper.hpp:28`:
`fmod(angle + π, 2π) - π`. -/
def wrap_pi (angle : ℝ) : ℝ := fmod (angle + π) (2 * π) - π

/-! ## Gimbal-limit policy (`src/calibur/worker/helper.hpp:105`) -/

def GIMBAL_PITCH_MIN : ℝ := -0.17
def GIMBAL_PITCH_MAX : ℝ := 0.87
def GIMBAL_YAW_MIN : ℝ := -3.14
def GIMBAL_YAW_MAX : ℝ := 3.14
def GIMBAL_SAFETY_MARGIN : ℝ := 0.05
def GIMBAL_HAS_YAW_LIMITS : Bool := false

/-- `std::clamp v lo hi`. -/
def clampf (v lo hi : ℝ) : ℝ := if v < lo then lo else if hi < v then hi else v

/-- `clamp_to_gimbal_limits` from `helper.hpp:105`: clamp pitch into the
margin-narrowed range; since the build has no yaw limits, wrap yaw through
`wrap_pi`.  Returns `(yaw, pitch)` after the in-place updates. -/
def clamp_to_gimbal_limits (yaw pitch : ℝ) : ℝ × ℝ :=
  let pitch_min_safe := GIMBAL_PITCH_MIN + GIMBAL_SAFETY_MARGIN
  let pitch_max_safe := GIMBAL_PITCH_MAX - GIMBAL_SAFETY_MARGIN
  let pitch1 := clampf pitch pitch_min_safe pitch_max_safe
  let yaw1 :=
    if !GIMBAL_HAS_YAW_LIMITS then
      wrap_pi yaw
    else
      clampf yaw (GIMBAL_YAW_MIN + GIMBAL_SAFETY_MARGIN)
        (GIMBAL_YAW_MAX - GIMBAL_SAFETY_MARGIN)
  (yaw1, pitch1)


/-! ## Data model

`types.hpp` is missing from the sources; the following three structures are
modelled from the spec (§3).  Floats are reals; the C++ `timestamp`
(a steady-clock time point) is a real number of seconds. -/

structure Vec3 where
  x : ℝ
  y : ℝ
  z : ℝ

/-- Euclidean length as computed by `tvec_distance` / `t_lead_calculation`. -/
def vnorm (v : Vec3) : ℝ := Real.sqrt (v.x * v.x + v.y * v.y + v.z * v.z)

/-- C `atan2 y x` over the reals. -/
def atan2 (y x : ℝ) : ℝ :=
  if 0 < x then Real.arctan (y / x)
  else if x < 0 then
    (if 0 ≤ y then Real.arctan (y / x) + π else Real.arctan (y / x) - π)
  else if 0 < y then π / 2
  else if y < 0 then -(π / 2)
  else 0

/-- Modelled from the spec (§3): the 15-slot state vector
`[x, y, z, vx, vy, vz, ax, ay, az, yaw, yaw_rate, yaw_acc, r1, r2, h]`;
slot `i` of `rs.state` in the sources is the `i`-th field here
(`IDX_TX = 0`, …, `IDX_YAW = 9`, `IDX_R1 = 12`, `IDX_R2 = 13`). -/
structure StateVec where
  x : ℝ
  y : ℝ
  z : ℝ
  vx : ℝ
  vy : ℝ
  vz : ℝ
  ax : ℝ
  ay : ℝ
  az : ℝ
  yaw : ℝ
  yawRate : ℝ
  yawAcc : ℝ
  r1 : ℝ
  r2 : ℝ
  h : ℝ

/-- The all-zero state vector (C++ value initialisation). -/
def StateVec.zero : StateVec := ⟨0, 0, 0, 0, 0, 0, 0, 0, 0, 0, 0, 0, 0, 0, 0⟩

/-- Modelled from the spec (§3): per-armor observation.  `keypoints` and
`confidence` are dropped: no claim reads them. -/
structure DetectionResult where
  class_id : ℤ
  tvec : Vec3
  yaw_rad : ℝ

/-- Modelled from the spec (§3): `RobotState`.  `pf_state` is the PF control
tag (`PF_STATE_RESET` when the filter must reinitialise). -/
structure RobotState where
  state : StateVec
  class_id : ℤ
  timestamp : ℝ
  pf_state : ℕ

/-- `RobotState()` value-initialisation: all fields zero. -/
def RobotState.zero : RobotState := ⟨StateVec.zero, 0, 0, 0⟩

/-- Modelled from the spec (§3): the Prediction stage's output record. -/
structure PredictionOut where
  yaw_cmd : ℝ
  pitch_cmd : ℝ
  fire : Bool
  chase : Bool
  aim : Bool
  timestamp : ℝ

/-- `PredictionOut out{}` value-initialisation: zeros and false. -/
def PredictionOut.zero : PredictionOut := ⟨0, 0, false, false, false, 0⟩

/-! ## Prediction worker (`src/calibur/worker/prediction_worker.cpp`) -/

def ALPHA_BULLET_SPEED : ℝ := 0.1
def ALPHA_PROCESSING_TIME : ℝ := 0.1
def PREDICTION_CONVERGENCE_THRESHOLD : ℝ := 0.01
def CHASE_THREASHOLD : ℝ := 6.0
def PRED_CONV_MAX_ITERS : ℕ := 10
def WIDTH_TOLERANCE : ℝ := 0.13
def HEIGHT_TOLERANCE : ℝ := 0.13
def TOLERANCE_COEFF : ℝ := 1.0

/-- `filtering` (`prediction_worker.cpp:121`): exponential smoothing. -/
def filtering (value measurement alpha : ℝ) : ℝ :=
  alpha * measurement + (1 - alpha) * value

/-- `is_converged` (`prediction_worker.cpp:126`): note that it tests the
absolute value of its argument, not a difference of successive values. -/
def is_converged (v threshold : ℝ) : Prop := |v| < threshold

/-- `t_lead_calculation` (`prediction_worker.cpp:130`): distance over speed. -/
def t_lead_calculation (tvec : Vec3) (bullet_speed : ℝ) : ℝ :=
  vnorm tvec / bullet_speed

/-- `sector_from_yaw` (`prediction_worker.cpp:142`).
`static_cast<int>(std::floor(sector_f)) & 3`: on a two's-complement `int`,
`& 3` is the non-negative remainder modulo 4, i.e. `Int.emod · 4`. -/
def sector_from_yaw (yaw : ℝ) : ℤ :=
  ⌊(wrap_pi yaw + π / 4) / (π / 2)⌋ % 4

/-- `motion_model_robot` (`prediction_worker.cpp:151`): ballistic state
propagation over horizon `t` plus the armor-ring offset.  Note the radius:
`armor_plate_idx ? state[13] : state[12]` picks `r2` whenever the sector is
non-zero, not when it is odd. -/
def motion_model_robot (s : StateVec) (t : ℝ) : Vec3 :=
  let px := s.x + s.vx * t + 0.5 * s.ax * (t * t)
  let py := s.y + s.vy * t + 0.5 * s.ay * (t * t)
  let pz := s.z + s.vz * t + 0.5 * s.az * (t * t)
  let yaw := s.yaw + s.yawRate * t + 0.5 * s.yawAcc * (t * t)
  let armor_plate_idx := sector_from_yaw yaw
  let yaw_shifted := yaw + π / 4
  let yaw_restrict := fmod yaw_shifted (2 * (π / 2)) - π / 4
  let radius := if armor_plate_idx ≠ 0 then s.r2 else s.r1
  ⟨px + radius * Real.sin yaw_restrict,
   py + s.h,
   pz - radius * Real.cos yaw_restrict⟩

/-- The motion model as claim C5 states it: identical to
`motion_model_robot` except that the radius is `r2` exactly when the sector
is odd (`r1` on even sectors).  Kept separate to compare with the code. -/
def motion_model_claimed (s : StateVec) (t : ℝ) : Vec3 :=
  let px := s.x + s.vx * t + 0.5 * s.ax * (t * t)
  let py := s.y + s.vy * t + 0.5 * s.ay * (t * t)
  let pz := s.z + s.vz * t + 0.5 * s.az * (t * t)
  let yaw := s.yaw + s.yawRate * t + 0.5 * s.yawAcc * (t * t)
  let armor_plate_idx := sector_from_yaw yaw
  let yaw_shifted := yaw + π / 4
  let yaw_restrict := fmod yaw_shifted (2 * (π / 2)) - π / 4
  let radius := if armor_plate_idx % 2 = 1 then s.r2 else s.r1
  ⟨px + radius * Real.sin yaw_restrict,
   py + s.h,
   pz - radius * Real.cos yaw_restrict⟩

/-- `calculate_gimbal_correction` (`prediction_worker.cpp:178`):
`(atan2(x, z), atan2(y, z))`. -/
def calculate_gimbal_correction (t : Vec3) : ℝ × ℝ :=
  (atan2 t.x t.z, atan2 t.y t.z)

/-- `bullet_drop_correction` (`prediction_worker.cpp:190`):
`½ · 9.81 · d² / v²`. -/
def bullet_drop_correction (distance bullet_speed : ℝ) : ℝ :=
  0.5 * 9.81 * distance * distance * (1 / bullet_speed * (1 / bullet_speed))

/-- `should_fire` (`prediction_worker.cpp:199`): inside the half-tolerance
window on both axes (source returns the `&&` of the comparisons as `int`). -/
def should_fire (t : Vec3) : Prop :=
  |t.x| < WIDTH_TOLERANCE * TOLERANCE_COEFF * 0.5 ∧
    |t.y| < HEIGHT_TOLERANCE * TOLERANCE_COEFF * 0.5

/-- Result of the lead-time convergence do-while loop: final `pos_lead`,
final `t_lead`, and how many times the body ran. -/
structure ConvResult where
  pos : Vec3
  t_lead : ℝ
  iters : ℕ

/-- The do-while body/guard of `compute_prediction`
(`prediction_worker.cpp:85`–92), with `extra = processing_time +
t_gimbal_actuation`.  `fuel` is `PRED_CONV_MAX_ITERS - iter`, so the `fuel =
0` leaf is unreachable from `conv_loop`; the guard re-runs the body while
`!is_converged(t_lead, threshold) && iter < MAX_ITERS`. -/
def conv_loop_aux (s : StateVec) (v extra : ℝ) :
    ℕ → ℝ → ℕ → ConvResult
  | fuel, t, iter =>
    let pos := motion_model_robot s t
    let t9 := t_lead_calculation pos v + extra
    let iter9 := iter + 1
    match fuel with
    | 0 => ⟨pos, t9, iter9⟩
    | fuel9 + 1 =>
      if ¬ is_converged t9 PREDICTION_CONVERGENCE_THRESHOLD ∧
          iter9 < PRED_CONV_MAX_ITERS then
        conv_loop_aux s v extra fuel9 t9 iter9
      else ⟨pos, t9, iter9⟩

/-- The lead-time convergence loop of `compute_prediction`, entered with the
initial estimate `t0 = ‖tvec‖/v + processing_time + t_gimbal_actuation`. -/
def conv_loop (s : StateVec) (v extra t0 : ℝ) : ConvResult :=
  conv_loop_aux s v extra PRED_CONV_MAX_ITERS t0 0

/-- The `PredictionWorker` member variables touched by
`compute_prediction` (`workers.hpp`); the `int` flags are modelled as
`Bool`. -/
structure PredMembers where
  bullet_speed : ℝ
  processing_time : ℝ
  t_gimbal_actuation : ℝ
  fire_state : Bool
  chase_state : Bool
  aim_state : Bool

/-- Constructor-time member values
(`bullet_speed = 20.0f; processing_time = 0.05f; t_gimbal_actuation =
0.1f`, flags false). -/
def PredMembers.init : PredMembers := ⟨20.0, 0.05, 0.1, false, false, false⟩

/-- Everything `compute_prediction` leaves behind: the member state, the
`out` argument as the function left it, and its locals (the drop-corrected
camera-frame lead position, the `correction` buffer and the flags). -/
structure ComputeResult where
  members : PredMembers
  out : PredictionOut
  pos_cam : Vec3
  correction : ℝ × ℝ
  fire : Bool
  chase : Bool
  aim : Bool

/-- `PredictionWorker::compute_prediction`
(`prediction_worker.cpp:48`–119).  `Rw2c` stands for the world-to-camera
rotation `world2cam(shared_)` (modelled from the spec, §4.6 step 5: the
helper is not among the sources); `proc_time` is the measured
`now - rs.timestamp`.  The function computes the gimbal correction, fire and
chase flags, stores the flags in member variables — and never writes `out`,
which is returned exactly as it came in. -/
def compute_prediction (Rw2c : Vec3 → Vec3) (m : PredMembers)
    (rs : RobotState) (proc_time measured_speed : ℝ)
    (out0 : PredictionOut) : ComputeResult :=
  let bullet_speed := filtering m.bullet_speed measured_speed ALPHA_BULLET_SPEED
  let processing_time := filtering m.processing_time proc_time ALPHA_PROCESSING_TIME
  let tvec : Vec3 := ⟨rs.state.x, rs.state.y, rs.state.z⟩
  let t0 := t_lead_calculation tvec bullet_speed + processing_time
      + m.t_gimbal_actuation
  let conv := conv_loop rs.state bullet_speed
      (processing_time + m.t_gimbal_actuation) t0
  let pos1 := Rw2c conv.pos
  let distance := vnorm pos1
  let drop := bullet_drop_correction distance bullet_speed
  let pos2 : Vec3 := ⟨pos1.x, pos1.y + drop, pos1.z⟩
  let correction := calculate_gimbal_correction pos2
  let fire : Bool := decide (should_fire pos2)
  let chase : Bool := decide (pos2.z > CHASE_THREASHOLD)
  let aim : Bool := true
  ⟨⟨bullet_speed, processing_time, m.t_gimbal_actuation, fire, chase, aim⟩,
   out0, pos2, correction, fire, chase, aim⟩

/-- One publishing step of `PredictionWorker::operator()`
(`prediction_worker.cpp:35`–39): a fresh value-initialised `PredictionOut`
is handed to `compute_prediction` and then published as-is. -/
def prediction_publish (Rw2c : Vec3 → Vec3) (m : PredMembers)
    (rs : RobotState) (proc_time measured_speed : ℝ) : PredictionOut :=
  (compute_prediction Rw2c m rs proc_time measured_speed
      PredictionOut.zero).out

/-! ## Detection worker (`src/calibur/worker/detection_worker.cpp`) -/

/-- `tvec_distance` (`detection_worker.cpp:196`). -/
def tvec_distance (t : Vec3) : ℝ := vnorm t

/-- Mean armor distance of a group as computed inside `choose_best_robot`
(`detection_worker.cpp:209`–217): one armor's distance, or the average of
the first two.  Groups always carry 1–2 armors; `[]` (which the C++ would
index out of bounds) is given distance 0. -/
def group_avg_dist (g : List DetectionResult) : ℝ :=
  match g with
  | [d] => tvec_distance d.tvec
  | d1 :: d2 :: _ => 0.5 * (tvec_distance d1.tvec + tvec_distance d2.tvec)
  | [] => 0

/-- `std::numeric_limits<float>::max()`, the initial `best_dist`. -/
def FLT_MAX : ℝ := (2 ^ 24 - 1) * 2 ^ 104

/-- `choose_best_robot` (`detection_worker.cpp:201`–226): the *index* of the
group with the strictly smallest mean armor distance (first wins ties). -/
def choose_best_robot (groups : List (List DetectionResult)) : ℤ :=
  (groups.enum.foldl
    (fun best p =>
      let avg := group_avg_dist p.2
      if avg < best.2 then ((p.1 : ℤ), avg) else best)
    ((0 : ℤ), FLT_MAX)).1

/-- The selector's persistent variables (`ttl_`, `selected_robot_id_`) and
its `selected_armors` output buffer. -/
structure SelectorSt where
  ttl : ℝ
  selected_robot_id : ℤ
  selected_armors : List DetectionResult

/-- `grouped_armors[i][0].class_id`, the class tag the tracker compares its
stored id against (`detection_worker.cpp:143`). -/
def gHeadClass (g : List DetectionResult) : ℤ :=
  match g with
  | d :: _ => d.class_id
  | [] => 0

/-- `DetectionWorker::select_armor` (`detection_worker.cpp:113`–167) with
`dt = 0.02` as in the source and `MAX_TTL = SELECTOR_TTL` (declared in the
missing `types.hpp`, hence a parameter).  The idle test
`selected_robot_id & 0x80000000` is the sign bit, i.e. `id < 0`. -/
def select_armor (MAX_TTL : ℝ) (groups : List (List DetectionResult))
    (st : SelectorSt) : SelectorSt :=
  let dt : ℝ := 0.02
  if groups = [] then
    let ttl := st.ttl - dt
    if ttl ≤ 0 then ⟨ttl, -1, []⟩
    else ⟨ttl, st.selected_robot_id, st.selected_armors⟩
  else if st.selected_robot_id < 0 then
    let id := choose_best_robot groups
    ⟨MAX_TTL, id, groups.getD id.toNat []⟩
  else
    match groups.findIdx? (fun g => gHeadClass g == st.selected_robot_id) with
    | some i => ⟨MAX_TTL, st.selected_robot_id, groups.getD i []⟩
    | none =>
      let ttl := st.ttl - dt
      if ttl > 0 then ⟨ttl, st.selected_robot_id, []⟩
      else
        let id := choose_best_robot groups
        ⟨MAX_TTL, id, groups.getD id.toNat []⟩

/-- The body of the candidate loop in `from_one_armor`
(`detection_worker.cpp:269`–275): keep the incumbent `(best_yaw, best_err)`
unless the candidate's wrapped error strictly improves on it, in which case
store the candidate wrapped to `(-π, π]`. -/
def yaw_cand_step (armor_yaw : ℝ) (best : ℝ × ℝ) (cand : ℝ) : ℝ × ℝ :=
  let err := |wrap_pi (cand - armor_yaw)|
  if err < best.2 then (wrap_pi cand, err) else best

/-- The `if (valid)` block of `from_one_armor`
(`detection_worker.cpp:256`–288): refine the previous yaw against the four
candidates `prev, prev ± π/2, prev + π`, then pick the ring radius from the
sector of the chosen yaw (`r2` on odd sectors).  Returns `(chosen_yaw, r)`. -/
def refine_yaw_and_radius (r1 r2 prev_yaw armor_yaw : ℝ) : ℝ × ℝ :=
  let best := [prev_yaw + π / 2, prev_yaw - π / 2, prev_yaw + π].foldl
    (yaw_cand_step armor_yaw) (prev_yaw, |wrap_pi (prev_yaw - armor_yaw)|)
  let chosen_yaw := best.1
  let angle0 := fmod (chosen_yaw + π) (2 * π)
  let angle := if angle0 < 0 then angle0 + 2 * π else angle0
  let shifted0 := fmod (angle + π / 4) (2 * π)
  let shifted := if shifted0 < 0 then shifted0 + 2 * π else shifted0
  let sector : ℤ := ⌊shifted / (π / 2)⌋
  -- `sector & 1` on two's complement is the remainder modulo 2
  let r := if sector % 2 = 1 then r2 else r1
  (chosen_yaw, r)

/-- `from_one_armor` (`detection_worker.cpp:241`–304).
`DEFAULT_ROBOT_RADIUS` lives in the missing `types.hpp` (the spec only says
"a configured radius", §3), hence the parameter `defaultRadius`.  Returns
the updated `robot` (the C++ mutates it in place and returns `true`). -/
def from_one_armor (defaultRadius : ℝ) (det : DetectionResult)
    (robot : RobotState) (valid : Bool) : RobotState :=
  let st1 :=
    if valid then robot.state
    else { robot.state with
            r1 := defaultRadius, r2 := defaultRadius, yaw := det.yaw_rad }
  let armor_yaw := det.yaw_rad
  let cyr : ℝ × ℝ :=
    if valid then refine_yaw_and_radius st1.r1 st1.r2 st1.yaw armor_yaw
    else (st1.yaw, st1.r1)
  let s := Real.sin armor_yaw
  let c := Real.cos armor_yaw
  { robot with
    state := { st1 with
                yaw := cyr.1,
                x := det.tvec.x - cyr.2 * s,
                y := det.tvec.y,
                z := det.tvec.z + cyr.2 * c },
    class_id := det.class_id }

/-- `DetectionWorker::form_robot` (`detection_worker.cpp:169`–187).
`from_two_armors` has an empty body in the source; it is taken as an opaque
parameter `f2` updating `(prev, has_prev)`.  Returns the pointer handed to
the publisher together with the new `(prev_robot_, has_prev_robot_)`.  Note
`rs` is allocated value-initialised and returned untouched: the
reconstruction only ever lands in `prev`. -/
def form_robot (defaultRadius : ℝ)
    (f2 : DetectionResult → DetectionResult → RobotState → Bool →
      RobotState × Bool)
    (armors : List DetectionResult) (prev : RobotState) (has_prev : Bool) :
    Option RobotState × RobotState × Bool :=
  if armors = [] ∨ 2 < armors.length then
    if !has_prev then (none, prev, has_prev)
    else (some prev, prev, has_prev)
  else
    let rs := RobotState.zero
    match armors with
    | [a] => (some rs, from_one_armor defaultRadius a prev has_prev, true)
    | a :: b :: _ =>
      let pb := f2 a b prev has_prev
      (some rs, pb.1, pb.2)
    | [] => (some rs, prev, has_prev)

/-! ## PF worker (`src/unnamed/part_001`) -/

/-- One 10 ms tick of `PFWorker::operator()` (`src/unnamed/part_001`,
lines 29–41).  The CUDA kernels are external (spec §6), modelled as the
opaque `stepK` (predict+update from a measurement) and `predK` (the
predict-only mean); a `RESET` measurement additionally reinitialises the
particle set, which has no bearing on the published record here.  After the
kernel result is obtained the worker overwrites its timestamp with the
current time `now` and publishes it. -/
def pf_tick (stepK : RobotState → RobotState) (predK : RobotState)
    (det : Option RobotState) (now : ℝ) : RobotState :=
  let out :=
    match det with
    | none => predK
    | some meas => stepK meas
  { out with timestamp := now }

end Calibur

namespace Calibur

theorem rtrunc_of_nonneg {x : ℝ} (h : 0 ≤ x) : rtrunc x = ⌊x⌋ := if_pos h

theorem rtrunc_of_neg {x : ℝ} (h : x < 0) : rtrunc x = ⌈x⌉ := if_neg (not_le.mpr h)

theorem fmod_eq_rmod_of_nonneg {x y : ℝ} (hx : 0 ≤ x) (hy : 0 < y) :
    fmod x y = rmod x y := by
  unfold fmod rmod
  rw [rtrunc_of_nonneg (div_nonneg hx hy.le)]

theorem rmod_nonneg {x y : ℝ} (hy : 0 < y) : 0 ≤ rmod x y := by
  unfold rmod
  have h := Int.sub_floor_div_mul_nonneg x hy
  linarith [h]

theorem rmod_lt {x y : ℝ} (hy : 0 < y) : rmod x y < y := by
  unfold rmod
  have h := Int.sub_floor_div_mul_lt x hy
  linarith [h]

theorem rmod_eq_fract_mul {x y : ℝ} (hy : y ≠ 0) :
    rmod x y = Int.fract (x / y) * y := by
  unfold rmod Int.fract
  field_simp

/-- `rmod` is invariant under shifting the dividend by an integer multiple of
the divisor. -/
theorem rmod_add_int_mul {x y : ℝ} (k : ℤ) (hy : y ≠ 0) :
    rmod (x + k * y) y = rmod x y := by
  unfold rmod
  have : (x + k * y) / y = x / y + k := by field_simp
  rw [this, Int.floor_add_int]
  push_cast
  ring

/-- Concrete evaluation: `wrap_pi (-2π) = -2π`; the truncated `fmod` keeps
the dividend's sign, so inputs below `-π` are not brought back into range. -/
theorem wrap_pi_neg_two_pi : wrap_pi (-(2 * π)) = -(2 * π) := by
  have harg : -(2 * π) + π = -π := by ring
  have hdiv : (-π) / (2 * π) = -(1 / 2 : ℝ) := by
    rw [div_eq_iff (ne_of_gt Real.two_pi_pos)]; ring
  have htr : rtrunc ((-π) / (2 * π)) = 0 := by
    rw [hdiv, rtrunc_of_neg (by norm_num)]
    norm_num
  unfold wrap_pi fmod
  rw [harg, htr]
  push_cast
  ring

theorem clampf_mem {v lo hi : ℝ} (h : lo ≤ hi) :
    lo ≤ clampf v lo hi ∧ clampf v lo hi ≤ hi := by
  unfold clampf
  split_ifs <;> constructor <;> linarith

/-- Recombining the four little-endian bytes of a 32-bit word. -/
theorem leByte_recombine {w : ℕ} (h : w < 2 ^ 32) :
    leByte w 0 + 256 * leByte w 1 + 256 ^ 2 * leByte w 2 + 256 ^ 3 * leByte w 3
      = w := by
  unfold leByte
  omega

/-- Concrete evaluation: `wrap_pi π = -π` (`π` maps to the excluded left
end of the claimed interval). -/
theorem wrap_pi_pi : wrap_pi π = -π := by
  have h1 : (π + π) / (2 * π) = 1 := by
    rw [div_eq_one_iff_eq (ne_of_gt Real.two_pi_pos)]; ring
  unfold wrap_pi fmod
  rw [h1, rtrunc_of_nonneg (by norm_num), Int.floor_one]
  push_cast
  ring

/-- `sector_from_yaw π = 2`: `wrap_pi π = -π`, `(-π + π/4)/(π/2) = -3/2`,
`⌊-3/2⌋ & 3 = 2`. -/
theorem sector_from_yaw_pi : sector_from_yaw π = 2 := by
  unfold sector_from_yaw
  rw [wrap_pi_pi]
  rw [show (-π + π / 4) / (π / 2) = -(3 / 2 : ℝ) by
    rw [div_eq_iff (by positivity : (π : ℝ) / 2 ≠ 0)]; ring]
  norm_num

/-- The armor-ring angle at `yaw_t = π`: `fmod(π + π/4, π) - π/4 = 0`. -/
theorem yaw_restrict_pi : fmod (π + π / 4) (2 * (π / 2)) - π / 4 = 0 := by
  have hne : (2 : ℝ) * (π / 2) ≠ 0 := by positivity
  have harg : (π + π / 4) / (2 * (π / 2)) = (5 / 4 : ℝ) := by
    rw [div_eq_iff hne]; ring
  unfold fmod
  rw [harg, rtrunc_of_nonneg (by norm_num)]
  norm_num
  ring

/-- If the motion model is constant in the horizon, every `pos_lead` the
convergence loop produces is that constant. -/
theorem conv_loop_aux_pos_const {s : StateVec} {P : Vec3} (v extra : ℝ)
    (h : ∀ t, motion_model_robot s t = P) :
    ∀ (fuel : ℕ) (t : ℝ) (iter : ℕ),
      (conv_loop_aux s v extra fuel t iter).pos = P := by
  intro fuel
  induction fuel with
  | zero => intro t iter; simp [conv_loop_aux, h]
  | succ n ih =>
    intro t iter
    rw [conv_loop_aux]
    split
    · exact ih _ _
    · simp [h]

theorem conv_loop_pos_const {s : StateVec} {P : Vec3} (v extra t0 : ℝ)
    (h : ∀ t, motion_model_robot s t = P) :
    (conv_loop s v extra t0).pos = P :=
  conv_loop_aux_pos_const v extra h _ _ _

/-- When every pass recomputes the same non-converged lead time `C`, the
loop runs all `PRED_CONV_MAX_ITERS` passes and ends at `C`. -/
theorem conv_loop_aux_iters_const {s : StateVec} {v extra C : ℝ}
    (hstep : ∀ t, t_lead_calculation (motion_model_robot s t) v + extra = C)
    (hnc : ¬ is_converged C PREDICTION_CONVERGENCE_THRESHOLD) :
    ∀ (fuel iter : ℕ) (t : ℝ), iter + fuel = PRED_CONV_MAX_ITERS → 1 ≤ fuel →
      (conv_loop_aux s v extra fuel t iter).iters = PRED_CONV_MAX_ITERS ∧
        (conv_loop_aux s v extra fuel t iter).t_lead = C := by
  intro fuel
  induction fuel with
  | zero => intro iter t hsum h1; omega
  | succ n ih =>
    intro iter t hsum h1
    have h10 : PRED_CONV_MAX_ITERS = 10 := rfl
    rw [conv_loop_aux]
    simp only [hstep]
    by_cases hlt : iter + 1 < PRED_CONV_MAX_ITERS
    · rw [if_pos ⟨hnc, hlt⟩]
      refine ih (iter + 1) C (by omega) ?_
      rw [h10] at hsum hlt
      omega
    · rw [if_neg (fun hand => hlt hand.2)]
      refine ⟨?_, rfl⟩
      show iter + 1 = PRED_CONV_MAX_ITERS
      rw [h10] at hsum hlt ⊢
      omega

/-- Loop invariant for the do-while: at least one pass runs, at most
`PRED_CONV_MAX_ITERS` do, and an early exit means the final `t_lead`
satisfied the `is_converged` test. -/
theorem conv_loop_aux_iters_spec (s : StateVec) (v extra : ℝ) :
    ∀ (fuel iter : ℕ) (t : ℝ), iter + fuel = PRED_CONV_MAX_ITERS → 1 ≤ fuel →
      iter + 1 ≤ (conv_loop_aux s v extra fuel t iter).iters ∧
        (conv_loop_aux s v extra fuel t iter).iters ≤ PRED_CONV_MAX_ITERS ∧
        ((conv_loop_aux s v extra fuel t iter).iters < PRED_CONV_MAX_ITERS →
          is_converged (conv_loop_aux s v extra fuel t iter).t_lead
            PREDICTION_CONVERGENCE_THRESHOLD) := by
  intro fuel
  induction fuel with
  | zero => intro iter t hsum h1; omega
  | succ n ih =>
    intro iter t hsum h1
    have h10 : PRED_CONV_MAX_ITERS = 10 := rfl
    rw [conv_loop_aux]
    by_cases hG : ¬ is_converged
        (t_lead_calculation (motion_model_robot s t) v + extra)
        PREDICTION_CONVERGENCE_THRESHOLD ∧
        iter + 1 < PRED_CONV_MAX_ITERS
    · rw [if_pos hG]
      have hn : 1 ≤ n := by
        have hlt := hG.2
        rw [h10] at hsum hlt
        omega
      have hrec := ih (iter + 1)
        (t_lead_calculation (motion_model_robot s t) v + extra)
        (by omega) hn
      exact ⟨le_trans (Nat.le_succ _) hrec.1, hrec.2.1, hrec.2.2⟩
    · rw [if_neg hG]
      push_neg at hG
      refine ⟨le_refl _, ?_, ?_⟩
      · show iter + 1 ≤ PRED_CONV_MAX_ITERS
        rw [h10] at hsum ⊢
        omega
      · intro hlt
        have hlt9 : iter + 1 < PRED_CONV_MAX_ITERS := hlt
        by_contra hc
        exact absurd hlt9 (Nat.not_lt.mpr (hG hc))

/-- The stationary 15-slot state at `(5, 0, 0)` used in the convergence
counterexample: the motion model is constant there. -/
theorem mm_const_five :
    ∀ t, motion_model_robot ⟨5, 0, 0, 0, 0, 0, 0, 0, 0, 0, 0, 0, 0, 0, 0⟩ t
      = ⟨5, 0, 0⟩ := by
  intro t
  simp [motion_model_robot, Vec3.mk.injEq, ite_self]

/-- Every pass of the loop on that state at speed 20 with
`extra = 0.15` recomputes the lead time `0.4`. -/
theorem step_const_five :
    ∀ t, t_lead_calculation
        (motion_model_robot ⟨5, 0, 0, 0, 0, 0, 0, 0, 0, 0, 0, 0, 0, 0, 0⟩ t)
        20 + 0.15 = 0.4 := by
  intro t
  rw [mm_const_five t]
  unfold t_lead_calculation vnorm
  rw [show (5 : ℝ) * 5 + 0 * 0 + 0 * 0 = 5 ^ 2 by norm_num,
    Real.sqrt_sq (by norm_num : (0 : ℝ) ≤ 5)]
  norm_num

theorem not_conv_04 : ¬ is_converged 0.4 PREDICTION_CONVERGENCE_THRESHOLD := by
  unfold is_converged PREDICTION_CONVERGENCE_THRESHOLD
  rw [abs_of_nonneg (by norm_num : (0 : ℝ) ≤ 0.4)]
  norm_num

/-- The target stationary at `(1, 0, 1)` used for the prediction worker's
failing input: the motion model is constant there too. -/
theorem mm_const_one_one :
    ∀ t, motion_model_robot ⟨1, 0, 1, 0, 0, 0, 0, 0, 0, 0, 0, 0, 0, 0, 0⟩ t
      = ⟨1, 0, 1⟩ := by
  intro t
  simp [motion_model_robot, Vec3.mk.injEq, ite_self]

theorem group_avg_dist_far :
    group_avg_dist [⟨3, ⟨0, 0, 5⟩, 0⟩] = 5 := by
  show Real.sqrt (0 * 0 + 0 * 0 + 5 * 5) = 5
  rw [show (0 : ℝ) * 0 + 0 * 0 + 5 * 5 = 5 ^ 2 by norm_num,
    Real.sqrt_sq (by norm_num : (0 : ℝ) ≤ 5)]

theorem group_avg_dist_near :
    group_avg_dist [⟨7, ⟨0, 0, 3⟩, 0⟩] = 3 := by
  show Real.sqrt (0 * 0 + 0 * 0 + 3 * 3) = 3
  rw [show (0 : ℝ) * 0 + 0 * 0 + 3 * 3 = 3 ^ 2 by norm_num,
    Real.sqrt_sq (by norm_num : (0 : ℝ) ≤ 3)]

/-- `choose_best_robot` on the spec's acquisition scenario returns the
*index* 1 of the nearest group, not its class id. -/
theorem choose_best_robot_scenario :
    choose_best_robot [[⟨3, ⟨0, 0, 5⟩, 0⟩], [⟨7, ⟨0, 0, 3⟩, 0⟩]] = 1 := by
  unfold choose_best_robot
  have henum : List.enum [[(⟨3, ⟨0, 0, 5⟩, 0⟩ : DetectionResult)],
      [⟨7, ⟨0, 0, 3⟩, 0⟩]]
      = [(0, [⟨3, ⟨0, 0, 5⟩, 0⟩]), (1, [⟨7, ⟨0, 0, 3⟩, 0⟩])] := rfl
  rw [henum]
  simp only [List.foldl_cons, List.foldl_nil, group_avg_dist_far,
    group_avg_dist_near]
  rw [if_pos (by norm_num [FLT_MAX])]
  norm_num

/-- The C idiom `m = fmod(x, y); if (m < 0) m += y;` computes the
mathematical non-negative remainder. -/
theorem fmod_fixup_eq_rmod {x y : ℝ} (hy : 0 < y) :
    (if fmod x y < 0 then fmod x y + y else fmod x y) = rmod x y := by
  rcases le_or_lt 0 (x / y) with hz | hz
  · have he : fmod x y = rmod x y := by
      unfold fmod rmod; rw [rtrunc_of_nonneg hz]
    rw [he, if_neg (not_lt.mpr (rmod_nonneg hy))]
  · have h1 : ⌊x / y⌋ ≤ ⌈x / y⌉ := Int.floor_le_ceil _
    have h2 : ⌈x / y⌉ ≤ ⌊x / y⌋ + 1 := Int.ceil_le_floor_add_one _
    rcases eq_or_lt_of_le h1 with heq | hlt
    · have he : fmod x y = rmod x y := by
        unfold fmod rmod; rw [rtrunc_of_neg hz, ← heq]
      rw [he, if_neg (not_lt.mpr (rmod_nonneg hy))]
    · have heq : ⌈x / y⌉ = ⌊x / y⌋ + 1 := by omega
      have he : fmod x y = rmod x y - y := by
        unfold fmod rmod; rw [rtrunc_of_neg hz, heq]; push_cast; ring
      have hneg : fmod x y < 0 := by
        have := rmod_lt (x := x) hy; rw [he]; linarith
      rw [if_pos hneg, he]; ring

/-- `fmod` differs from the non-negative remainder by an integer multiple of
the divisor. -/
theorem fmod_eq_rmod_add_int {x y : ℝ} (_hy : 0 < y) :
    ∃ k : ℤ, fmod x y = rmod x y + (k : ℝ) * y := by
  rcases le_or_lt 0 (x / y) with hz | hz
  · exact ⟨0, by unfold fmod rmod; rw [rtrunc_of_nonneg hz]; push_cast; ring⟩
  · have h1 : ⌊x / y⌋ ≤ ⌈x / y⌉ := Int.floor_le_ceil _
    have h2 : ⌈x / y⌉ ≤ ⌊x / y⌋ + 1 := Int.ceil_le_floor_add_one _
    rcases eq_or_lt_of_le h1 with heq | hlt
    · exact ⟨0, by
        unfold fmod rmod; rw [rtrunc_of_neg hz, ← heq]; push_cast; ring⟩
    · have heq : ⌈x / y⌉ = ⌊x / y⌋ + 1 := by omega
      exact ⟨-1, by
        unfold fmod rmod; rw [rtrunc_of_neg hz, heq]; push_cast; ring⟩

/-- The two-step fixed-up `fmod` chain computed in `from_one_armor`'s
sector selection equals the spec's single `mod` into `[0, 2π)` applied to
`wrap_pi(chosen) + π + π/4`. -/
theorem fixup_chain_eq (c : ℝ) :
    (if fmod ((if fmod (c + π) (2 * π) < 0 then fmod (c + π) (2 * π) + 2 * π
          else fmod (c + π) (2 * π)) + π / 4) (2 * π) < 0 then
       fmod ((if fmod (c + π) (2 * π) < 0 then fmod (c + π) (2 * π) + 2 * π
          else fmod (c + π) (2 * π)) + π / 4) (2 * π) + 2 * π
     else
       fmod ((if fmod (c + π) (2 * π) < 0 then fmod (c + π) (2 * π) + 2 * π
          else fmod (c + π) (2 * π)) + π / 4) (2 * π))
    = rmod (wrap_pi c + π + π / 4) (2 * π) := by
  rw [fmod_fixup_eq_rmod Real.two_pi_pos, fmod_fixup_eq_rmod Real.two_pi_pos]
  obtain ⟨k, hk⟩ := fmod_eq_rmod_add_int (x := c + π) Real.two_pi_pos
  have harg : wrap_pi c + π + π / 4
      = rmod (c + π) (2 * π) + π / 4 + (k : ℝ) * (2 * π) := by
    unfold wrap_pi
    rw [hk]
    ring
  rw [harg, rmod_add_int_mul k (ne_of_gt Real.two_pi_pos)]

/-- The chosen radius of `refine_yaw_and_radius` restated through the
spec's sector formula applied to the chosen yaw. -/
theorem refine_radius_eq (r1 r2 p a : ℝ) :
    (refine_yaw_and_radius r1 r2 p a).2 =
      if ⌊rmod (wrap_pi (refine_yaw_and_radius r1 r2 p a).1 + π + π / 4)
          (2 * π) / (π / 2)⌋ % 2 = 1
      then r2 else r1 := by
  unfold refine_yaw_and_radius
  dsimp only
  rw [fixup_chain_eq]

theorem yaw_cand_step_cases (a : ℝ) (b : ℝ × ℝ) (c : ℝ) :
    (yaw_cand_step a b c = (wrap_pi c, |wrap_pi (c - a)|) ∧
        |wrap_pi (c - a)| < b.2) ∨
      (yaw_cand_step a b c = b ∧ b.2 ≤ |wrap_pi (c - a)|) := by
  unfold yaw_cand_step
  rcases lt_or_le |wrap_pi (c - a)| b.2 with h | h
  · exact Or.inl ⟨if_pos h, h⟩
  · exact Or.inr ⟨if_neg (not_lt.mpr h), h⟩

/-- The candidate fold of `from_one_armor` returns some candidate of
minimal wrapped error (shifted winners are stored wrapped to `(-π, π]`;
`prev_yaw` itself is kept unwrapped and wins ties). -/
theorem pick_best_spec (p a : ℝ) :
    ∃ c ∈ [p, p + π / 2, p - π / 2, p + π],
      ((([p + π / 2, p - π / 2, p + π].foldl (yaw_cand_step a)
            (p, |wrap_pi (p - a)|)).1 = c ∨
          ([p + π / 2, p - π / 2, p + π].foldl (yaw_cand_step a)
            (p, |wrap_pi (p - a)|)).1 = wrap_pi c) ∧
        ∀ d ∈ [p, p + π / 2, p - π / 2, p + π],
          |wrap_pi (c - a)| ≤ |wrap_pi (d - a)|) := by
  simp only [List.foldl_cons, List.foldl_nil]
  rcases yaw_cand_step_cases a (p, |wrap_pi (p - a)|) (p + π / 2) with
    ⟨hB1, h1⟩ | ⟨hB1, h1⟩ <;> rw [hB1] <;> dsimp only at h1
  · rcases yaw_cand_step_cases a
        (wrap_pi (p + π / 2), |wrap_pi (p + π / 2 - a)|) (p - π / 2) with
      ⟨hB2, h2⟩ | ⟨hB2, h2⟩ <;> rw [hB2] <;> dsimp only at h2
    · rcases yaw_cand_step_cases a
          (wrap_pi (p - π / 2), |wrap_pi (p - π / 2 - a)|) (p + π) with
        ⟨hB3, h3⟩ | ⟨hB3, h3⟩ <;> rw [hB3] <;> dsimp only at h3
      · refine ⟨p + π, by simp, Or.inr rfl, ?_⟩
        intro d hd
        simp only [List.mem_cons, List.not_mem_nil, or_false] at hd
        rcases hd with rfl | rfl | rfl | rfl <;> linarith
      · refine ⟨p - π / 2, by simp, Or.inr rfl, ?_⟩
        intro d hd
        simp only [List.mem_cons, List.not_mem_nil, or_false] at hd
        rcases hd with rfl | rfl | rfl | rfl <;> linarith
    · rcases yaw_cand_step_cases a
          (wrap_pi (p + π / 2), |wrap_pi (p + π / 2 - a)|) (p + π) with
        ⟨hB3, h3⟩ | ⟨hB3, h3⟩ <;> rw [hB3] <;> dsimp only at h3
      · refine ⟨p + π, by simp, Or.inr rfl, ?_⟩
        intro d hd
        simp only [List.mem_cons, List.not_mem_nil, or_false] at hd
        rcases hd with rfl | rfl | rfl | rfl <;> linarith
      · refine ⟨p + π / 2, by simp, Or.inr rfl, ?_⟩
        intro d hd
        simp only [List.mem_cons, List.not_mem_nil, or_false] at hd
        rcases hd with rfl | rfl | rfl | rfl <;> linarith
  · rcases yaw_cand_step_cases a (p, |wrap_pi (p - a)|) (p - π / 2) with
      ⟨hB2, h2⟩ | ⟨hB2, h2⟩ <;> rw [hB2] <;> dsimp only at h2
    · rcases yaw_cand_step_cases a
          (wrap_pi (p - π / 2), |wrap_pi (p - π / 2 - a)|) (p + π) with
        ⟨hB3, h3⟩ | ⟨hB3, h3⟩ <;> rw [hB3] <;> dsimp only at h3
      · refine ⟨p + π, by simp, Or.inr rfl, ?_⟩
        intro d hd
        simp only [List.mem_cons, List.not_mem_nil, or_false] at hd
        rcases hd with rfl | rfl | rfl | rfl <;> linarith
      · refine ⟨p - π / 2, by simp, Or.inr rfl, ?_⟩
        intro d hd
        simp only [List.mem_cons, List.not_mem_nil, or_false] at hd
        rcases hd with rfl | rfl | rfl | rfl <;> linarith
    · rcases yaw_cand_step_cases a (p, |wrap_pi (p - a)|) (p + π) with
        ⟨hB3, h3⟩ | ⟨hB3, h3⟩ <;> rw [hB3] <;> dsimp only at h3
      · refine ⟨p + π, by simp, Or.inr rfl, ?_⟩
        intro d hd
        simp only [List.mem_cons, List.not_mem_nil, or_false] at hd
        rcases hd with rfl | rfl | rfl | rfl <;> linarith
      · refine ⟨p, by simp, Or.inl rfl, ?_⟩
        intro d hd
        simp only [List.mem_cons, List.not_mem_nil, or_false] at hd
        rcases hd with rfl | rfl | rfl | rfl <;> linarith

theorem foa_true_yaw (R : ℝ) (det : DetectionResult) (robot : RobotState) :
    (from_one_armor R det robot true).state.yaw
      = (refine_yaw_and_radius robot.state.r1 robot.state.r2
          robot.state.yaw det.yaw_rad).1 := rfl

theorem foa_true_x (R : ℝ) (det : DetectionResult) (robot : RobotState) :
    (from_one_armor R det robot true).state.x
      = det.tvec.x - (refine_yaw_and_radius robot.state.r1 robot.state.r2
          robot.state.yaw det.yaw_rad).2 * Real.sin det.yaw_rad := rfl

theorem foa_true_z (R : ℝ) (det : DetectionResult) (robot : RobotState) :
    (from_one_armor R det robot true).state.z
      = det.tvec.z + (refine_yaw_and_radius robot.state.r1 robot.state.r2
          robot.state.yaw det.yaw_rad).2 * Real.cos det.yaw_rad := rfl

theorem refine_fst (r1 r2 p a : ℝ) :
    (refine_yaw_and_radius r1 r2 p a).1
      = ([p + π / 2, p - π / 2, p + π].foldl (yaw_cand_step a)
          (p, |wrap_pi (p - a)|)).1 := rfl

/-- On non-negative dividends `wrap_pi` lands in `[-π, π)`. -/
theorem wrap_pi_mem_of_nonneg {a : ℝ} (h : -π ≤ a) :
    -π ≤ wrap_pi a ∧ wrap_pi a < π := by
  have hx : 0 ≤ a + π := by linarith
  have h1 : wrap_pi a = rmod (a + π) (2 * π) - π := by
    unfold wrap_pi
    rw [fmod_eq_rmod_of_nonneg hx Real.two_pi_pos]
  constructor
  · have := rmod_nonneg (x := a + π) Real.two_pi_pos
    rw [h1]; linarith
  · have := rmod_lt (x := a + π) Real.two_pi_pos
    rw [h1]; linarith

end Calibur

namespace Claims

open Calibur

/-- **C6 counterexample.**  The spec claims `wrap_pi` lands in `(-π, π]` for
every finite input, but `wrap_pi (-2π) = -2π`, which is below `-π`:
C `fmod` keeps the sign of its dividend, so negative inputs below `-π` are
not brought back into range.  Moreover `wrap_pi π = -π`, so the claimed
left-open right-closed interval is wrong at both ends. -/
theorem C6_wrap_pi_not_in_range :
    (wrap_pi (-(2 * π)) = -(2 * π) ∧
      ¬(-π < wrap_pi (-(2 * π)) ∧ wrap_pi (-(2 * π)) ≤ π)) ∧
    (wrap_pi π = -π ∧ ¬(-π < wrap_pi π ∧ wrap_pi π ≤ π)) := by
  have hpi : (0 : ℝ) < π := Real.pi_pos
  refine ⟨⟨wrap_pi_neg_two_pi, ?_⟩, wrap_pi_pi, ?_⟩
  · rw [wrap_pi_neg_two_pi]
    intro hcl
    linarith [hcl.1]
  · rw [wrap_pi_pi]
    intro hcl
    exact lt_irrefl _ hcl.1

/-- **C6 (amended).**  For every input angle at least `-π`, `wrap_pi` returns a
value in `[-π, π)` (the claimed interval `(-π, π]` fails at both ends: `-π` is
attained, `π` never is, and inputs below `-π` escape entirely). -/
theorem C6_wrap_pi_range_amended (a : ℝ) (h : -π ≤ a) :
    -π ≤ wrap_pi a ∧ wrap_pi a < π :=
  wrap_pi_mem_of_nonneg h

/-- Witness for `C6_wrap_pi_range_amended` at `a = 0`. -/
theorem C6_wrap_pi_range_amended_witness :
    -π ≤ (0 : ℝ) ∧ (-π ≤ wrap_pi 0 ∧ wrap_pi 0 < π) :=
  ⟨neg_nonpos_of_nonneg Real.pi_nonneg,
   C6_wrap_pi_range_amended 0 (neg_nonpos_of_nonneg Real.pi_nonneg)⟩

/-- **C7 counterexample.**  The spec claims that after
`clamp_to_gimbal_limits` the yaw lies in `(-π, π]` (the build has no yaw
limits), but on input yaw `-2π` the wrapped yaw is still `-2π`, and on
input yaw `π` it is `-π`, outside the claimed interval in both cases. -/
theorem C7_gimbal_clamp_yaw_escapes :
    ((clamp_to_gimbal_limits (-(2 * π)) 0).1 = -(2 * π) ∧
      ¬(-π < (clamp_to_gimbal_limits (-(2 * π)) 0).1 ∧
          (clamp_to_gimbal_limits (-(2 * π)) 0).1 ≤ π)) ∧
    ((clamp_to_gimbal_limits π 0).1 = -π ∧
      ¬(-π < (clamp_to_gimbal_limits π 0).1 ∧
          (clamp_to_gimbal_limits π 0).1 ≤ π)) := by
  have hpi : (0 : ℝ) < π := Real.pi_pos
  have h1 : (clamp_to_gimbal_limits (-(2 * π)) 0).1 = -(2 * π) := by
    unfold clamp_to_gimbal_limits
    simp [GIMBAL_HAS_YAW_LIMITS, wrap_pi_neg_two_pi]
  have h2 : (clamp_to_gimbal_limits π 0).1 = -π := by
    unfold clamp_to_gimbal_limits
    simp [GIMBAL_HAS_YAW_LIMITS, wrap_pi_pi]
  refine ⟨⟨h1, ?_⟩, ⟨h2, ?_⟩⟩
  · rw [h1]
    intro hcl
    linarith [hcl.1]
  · rw [h2]
    intro hcl
    exact lt_irrefl _ hcl.1

/-- **C7 (amended).**  After `clamp_to_gimbal_limits` the pitch always lies in
`[pitch_min + margin, pitch_max - margin]`; and — since `has_yaw_limits` is
false in this build — for any input yaw at least `-π` the output yaw lies in
`[-π, π)` (inputs below `-π` escape, `-π` is attained at yaw `= π`, and `π`
never is). -/
theorem C7_gimbal_clamp_amended (yaw pitch : ℝ) (h : -π ≤ yaw) :
    GIMBAL_PITCH_MIN + GIMBAL_SAFETY_MARGIN
        ≤ (clamp_to_gimbal_limits yaw pitch).2 ∧
      (clamp_to_gimbal_limits yaw pitch).2
        ≤ GIMBAL_PITCH_MAX - GIMBAL_SAFETY_MARGIN ∧
      -π ≤ (clamp_to_gimbal_limits yaw pitch).1 ∧
      (clamp_to_gimbal_limits yaw pitch).1 < π := by
  have hlohi : GIMBAL_PITCH_MIN + GIMBAL_SAFETY_MARGIN
      ≤ GIMBAL_PITCH_MAX - GIMBAL_SAFETY_MARGIN := by
    unfold GIMBAL_PITCH_MIN GIMBAL_PITCH_MAX GIMBAL_SAFETY_MARGIN
    norm_num
  have hp := clampf_mem (v := pitch) hlohi
  have hy := wrap_pi_mem_of_nonneg h
  unfold clamp_to_gimbal_limits
  simp only [GIMBAL_HAS_YAW_LIMITS, Bool.not_false, if_true]
  exact ⟨hp.1, hp.2, hy.1, hy.2⟩

/-- Witness for `C7_gimbal_clamp_amended` at `(yaw, pitch) = (0, 0)`. -/
theorem C7_gimbal_clamp_amended_witness :
    -π ≤ (0 : ℝ) ∧
      (GIMBAL_PITCH_MIN + GIMBAL_SAFETY_MARGIN
          ≤ (clamp_to_gimbal_limits 0 0).2 ∧
        (clamp_to_gimbal_limits 0 0).2
          ≤ GIMBAL_PITCH_MAX - GIMBAL_SAFETY_MARGIN ∧
        -π ≤ (clamp_to_gimbal_limits 0 0).1 ∧
        (clamp_to_gimbal_limits 0 0).1 < π) :=
  ⟨neg_nonpos_of_nonneg Real.pi_nonneg,
   C7_gimbal_clamp_amended 0 0 (neg_nonpos_of_nonneg Real.pi_nonneg)⟩

/-- **C9.**  `sendData` emits exactly the 11-byte frame `0xAA | yaw bits LE |
pitch bits LE | fire | xor8`: byte 0 is `0xAA`, bytes 1–4 recombine
little-endian to the yaw bit pattern, bytes 5–8 to the pitch bit pattern,
byte 9 is the fire flag as 1/0, the final byte is the XOR of the first ten,
and decoding the frame restores `(yaw, pitch, fire)`.  Floats are modelled
by their IEEE-754 bit patterns, which is what `memcpy` serialises. -/
theorem C9_serial_roundtrip (yawBits pitchBits : ℕ) (fire : Bool)
    (hy : yawBits < 2 ^ 32) (hp : pitchBits < 2 ^ 32) :
    (sendData_packet yawBits pitchBits fire).length = 11 ∧
      (sendData_packet yawBits pitchBits fire).head? = some 0xAA ∧
      ((sendData_packet yawBits pitchBits fire).drop 1).take 4
          = [leByte yawBits 0, leByte yawBits 1,
             leByte yawBits 2, leByte yawBits 3] ∧
      leByte yawBits 0 + 256 * leByte yawBits 1 + 256 ^ 2 * leByte yawBits 2
          + 256 ^ 3 * leByte yawBits 3 = yawBits ∧
      ((sendData_packet yawBits pitchBits fire).drop 5).take 4
          = [leByte pitchBits 0, leByte pitchBits 1,
             leByte pitchBits 2, leByte pitchBits 3] ∧
      leByte pitchBits 0 + 256 * leByte pitchBits 1
          + 256 ^ 2 * leByte pitchBits 2 + 256 ^ 3 * leByte pitchBits 3
          = pitchBits ∧
      (sendData_packet yawBits pitchBits fire).get? 9
          = some (if fire then 0x01 else 0x00) ∧
      (sendData_packet yawBits pitchBits fire).getLast?
          = some (((sendData_packet yawBits pitchBits fire).take 10).foldl
              Nat.xor 0) ∧
      decode_frame (sendData_packet yawBits pitchBits fire)
          = some (yawBits, pitchBits, fire) := by
  refine ⟨by simp [sendData_packet], by simp [sendData_packet],
    by simp [sendData_packet], leByte_recombine hy,
    by simp [sendData_packet], leByte_recombine hp,
    by simp [sendData_packet], by simp [sendData_packet], ?_⟩
  simp only [sendData_packet, decode_frame, List.cons_append, List.nil_append]
  rw [if_pos (by exact ⟨trivial, trivial⟩)]
  rw [leByte_recombine hy, leByte_recombine hp]
  cases fire <;> simp

/-- Witness for `C9_serial_roundtrip` at the spec's scenario 6:
`yaw = 1.0f` (bits `0x3F800000`), `pitch = -0.5f` (bits `0xBF000000`),
`fire = true`. -/
theorem C9_serial_roundtrip_witness :
    (0x3F800000 : ℕ) < 2 ^ 32 ∧ (0xBF000000 : ℕ) < 2 ^ 32 ∧
      decode_frame (sendData_packet 0x3F800000 0xBF000000 true)
        = some (0x3F800000, 0xBF000000, true) :=
  ⟨by decide, by decide,
   (C9_serial_roundtrip 0x3F800000 0xBF000000 true (by decide)
      (by decide)).2.2.2.2.2.2.2.2⟩

/-- **C10 counterexample.**  The spec claims the `RobotState` published to
the `pf` slot on a tick that consumed a new detection carries the camera
frame's timestamp; but `PFWorker::operator()` overwrites `out.timestamp`
with `Clock::now()` before publishing.  Shown with the identity step kernel
(which would even preserve the measurement's timestamp), a measurement
stamped 100 and a tick at time 105. -/
theorem C10_pf_timestamp_not_carried :
    (pf_tick id RobotState.zero
        (some { RobotState.zero with timestamp := 100 }) 105).timestamp = 105
      ∧ (105 : ℝ) ≠ 100 :=
  ⟨rfl, by norm_num⟩

/-- **C10 (amended).**  The `RobotState` published to the `pf` slot carries
the PF worker's own publish time (`Clock::now()` at the tick) as its
timestamp — for every kernel behaviour and every measurement, including
ticks that consumed a new detection measurement — rather than the camera
frame timestamp carried through Detection. -/
theorem C10_pf_timestamp_amended (stepK : RobotState → RobotState)
    (predK : RobotState) (det : Option RobotState) (now : ℝ) :
    (pf_tick stepK predK det now).timestamp = now := by
  unfold pf_tick
  cases det <;> rfl

/-- **C2 (code bug).**  `form_robot` allocates a value-initialised
`RobotState rs`, runs `from_one_armor` *into the member `prev_robot_`*, and
returns `rs` untouched — so the `RobotState` published to the detection
slot is the all-zero default, not the reconstructed state.  At the failing
input (one armor, class 1, `tvec = (0, 5, 0)`, no prior) the reconstruction
has `y = 5` but the published state has `y = 0`, for every default radius
and every `from_two_armors` body. -/
theorem C2_form_robot_publishes_default (R : ℝ)
    (f2 : DetectionResult → DetectionResult → RobotState → Bool →
      RobotState × Bool) :
    (form_robot R f2 [⟨1, ⟨0, 5, 0⟩, 0⟩] RobotState.zero false).1
        = some RobotState.zero ∧
      (form_robot R f2 [⟨1, ⟨0, 5, 0⟩, 0⟩] RobotState.zero false).2.1
        = from_one_armor R ⟨1, ⟨0, 5, 0⟩, 0⟩ RobotState.zero false ∧
      (from_one_armor R ⟨1, ⟨0, 5, 0⟩, 0⟩ RobotState.zero false).state.y = 5 ∧
      RobotState.zero.state.y = 0 ∧ (5 : ℝ) ≠ 0 := by
  refine ⟨?_, ?_, ?_, rfl, by norm_num⟩
  · simp [form_robot]
  · simp [form_robot]
  · simp [from_one_armor]

/-- **C5 counterexample.**  The claim says the motion model uses `r = r2`
when the sector is odd, else `r1`.  The code uses `r2` whenever the sector
is non-zero (`armor_plate_idx ? state[13] : state[12]`).  At `yaw = π`
(sector 2, even) with `r1 = 1`, `r2 = 2`, everything else zero and horizon
`t = 0`, the code offsets `z` by `-r2 = -2` while the claimed rule gives
`-r1 = -1`. -/
theorem C5_motion_model_radius_mismatch :
    (motion_model_robot ⟨0, 0, 0, 0, 0, 0, 0, 0, 0, π, 0, 0, 1, 2, 0⟩ 0).z
        = -2 ∧
      (motion_model_claimed ⟨0, 0, 0, 0, 0, 0, 0, 0, 0, π, 0, 0, 1, 2, 0⟩ 0).z
        = -1 ∧
      motion_model_robot ⟨0, 0, 0, 0, 0, 0, 0, 0, 0, π, 0, 0, 1, 2, 0⟩ 0
        ≠ motion_model_claimed ⟨0, 0, 0, 0, 0, 0, 0, 0, 0, π, 0, 0, 1, 2, 0⟩ 0
    := by
  have hy : π + 0 * 0 + 0.5 * 0 * (0 * 0) = π := by ring
  have h1 :
      (motion_model_robot ⟨0, 0, 0, 0, 0, 0, 0, 0, 0, π, 0, 0, 1, 2, 0⟩ 0).z
        = -2 := by
    simp only [motion_model_robot, hy, sector_from_yaw_pi]
    rw [yaw_restrict_pi]
    norm_num
  have h2 :
      (motion_model_claimed ⟨0, 0, 0, 0, 0, 0, 0, 0, 0, π, 0, 0, 1, 2, 0⟩ 0).z
        = -1 := by
    simp only [motion_model_claimed, hy, sector_from_yaw_pi]
    rw [yaw_restrict_pi]
    norm_num
  refine ⟨h1, h2, fun hEq => ?_⟩
  have := congrArg Vec3.z hEq
  rw [h1, h2] at this
  norm_num at this

/-- **C5 (amended).**  The motion model propagates position by
`(v, a)`-kinematics over horizon `t`, computes the sector of
`yaw_t = yaw + yaw_rate·t + ½·yaw_acc·t²` (always in `{0, 1, 2, 3}`), uses
`r = r1` exactly when the sector is 0 and `r = r2` otherwise (not odd/even
as claimed), and offsets by `(r·sin(yaw_restrict), h, -r·cos(yaw_restrict))`
with `yaw_restrict = fmod(yaw_t + π/4, π) - π/4`. -/
theorem C5_motion_model_amended (s : StateVec) (t : ℝ) :
    (sector_from_yaw (s.yaw + s.yawRate * t + 0.5 * s.yawAcc * (t * t)) = 0 ∨
      sector_from_yaw (s.yaw + s.yawRate * t + 0.5 * s.yawAcc * (t * t)) = 1 ∨
      sector_from_yaw (s.yaw + s.yawRate * t + 0.5 * s.yawAcc * (t * t)) = 2 ∨
      sector_from_yaw (s.yaw + s.yawRate * t + 0.5 * s.yawAcc * (t * t)) = 3) ∧
    motion_model_robot s t =
      (let yawT := s.yaw + s.yawRate * t + 0.5 * s.yawAcc * (t * t)
       let r := if sector_from_yaw yawT = 0 then s.r1 else s.r2
       let yr := fmod (yawT + π / 4) π - π / 4
       ⟨s.x + s.vx * t + 0.5 * s.ax * (t * t) + r * Real.sin yr,
        s.y + s.vy * t + 0.5 * s.ay * (t * t) + s.h,
        s.z + s.vz * t + 0.5 * s.az * (t * t) - r * Real.cos yr⟩) := by
  constructor
  · have h0 : (0 : ℤ) ≤ sector_from_yaw
        (s.yaw + s.yawRate * t + 0.5 * s.yawAcc * (t * t)) :=
      Int.emod_nonneg _ (by norm_num)
    have h4 : sector_from_yaw
        (s.yaw + s.yawRate * t + 0.5 * s.yawAcc * (t * t)) < 4 :=
      Int.emod_lt_of_pos _ (by norm_num)
    omega
  · simp only [motion_model_robot]
    rw [show (2 : ℝ) * (π / 2) = π by ring]
    by_cases h : sector_from_yaw
        (s.yaw + s.yawRate * t + 0.5 * s.yawAcc * (t * t)) = 0 <;>
      simp [h]

/-- **C1 (code bug).**  `compute_prediction` computes the gimbal correction,
fire and chase flags — and stores the flags in member variables without ever
writing its `out` parameter (nor does it ever call
`clamp_to_gimbal_limits`); `operator()` then publishes the untouched
value-initialised `PredictionOut`.  So every published record is all
zeros/false.  At the failing input — PF state at `(1, 0, 1)`, identity IMU
rotation — the function's own `correction[0]` is `atan2(1, 1) = π/4 ≠ 0`,
yet `yaw_cmd = 0` is published. -/
theorem C1_prediction_publishes_default :
    (∀ (Rw2c : Vec3 → Vec3) (m : PredMembers) (rs : RobotState)
        (proc v : ℝ),
      prediction_publish Rw2c m rs proc v = PredictionOut.zero) ∧
      (compute_prediction id PredMembers.init
          ⟨⟨1, 0, 1, 0, 0, 0, 0, 0, 0, 0, 0, 0, 0, 0, 0⟩, 0, 0, 0⟩
          0.05 20 PredictionOut.zero).correction.1 = π / 4 ∧
      (π / 4 : ℝ) ≠ 0 := by
  refine ⟨fun Rw2c m rs proc v => rfl, ?_, by positivity⟩
  simp only [compute_prediction, calculate_gimbal_correction]
  rw [conv_loop_pos_const _ _ _ mm_const_one_one]
  show atan2 (1 : ℝ) 1 = π / 4
  unfold atan2
  rw [if_pos one_pos]
  norm_num [Real.arctan_one]

/-- **C8 counterexample.**  The claim says the lead-time loop stops as soon
as `|t_lead_new - t_lead_old| < 0.01 s`.  For the stationary target at
`(5, 0, 0)` with `v = 20`, `extra = 0.15`, every pass recomputes the same
estimate `0.4`, so the change is `|0.4 - 0.4| = 0 < 0.01` from the second
pass on and the claimed rule would stop after 2 iterations — but the loop
runs all 10, because `is_converged` tests `|t_lead| < 0.01` (the value
itself, which never passes here). -/
theorem C8_conv_loop_ignores_change :
    (conv_loop ⟨5, 0, 0, 0, 0, 0, 0, 0, 0, 0, 0, 0, 0, 0, 0⟩ 20 0.15
        0.4).iters = 10 ∧
      (conv_loop ⟨5, 0, 0, 0, 0, 0, 0, 0, 0, 0, 0, 0, 0, 0, 0⟩ 20 0.15
        0.4).t_lead = 0.4 ∧
      (∀ t, t_lead_calculation
          (motion_model_robot ⟨5, 0, 0, 0, 0, 0, 0, 0, 0, 0, 0, 0, 0, 0, 0⟩ t)
          20 + 0.15 = 0.4) ∧
      |(0.4 : ℝ) - 0.4| < 0.01 ∧ (10 : ℕ) ≠ 2 := by
  have h := conv_loop_aux_iters_const step_const_five not_conv_04
    PRED_CONV_MAX_ITERS 0 0.4 rfl (by norm_num [PRED_CONV_MAX_ITERS])
  exact ⟨h.1, h.2, step_const_five, by norm_num, by norm_num⟩

/-- **C8 (amended).**  The loop stops as soon as the freshly computed lead
time itself satisfies `|t_lead| < 0.01 s` (not the change between successive
estimates), or after 10 iterations; in particular it always runs between 1
and 10 passes — for every state, bullet speed and initial estimate, hence in
particular for `‖tvec‖ ≤ 20 m` and `v ∈ [5, 40] m/s`. -/
theorem C8_conv_loop_termination_amended (s : StateVec) (v extra t0 : ℝ) :
    1 ≤ (conv_loop s v extra t0).iters ∧
      (conv_loop s v extra t0).iters ≤ PRED_CONV_MAX_ITERS ∧
      ((conv_loop s v extra t0).iters < PRED_CONV_MAX_ITERS →
        |(conv_loop s v extra t0).t_lead| < PREDICTION_CONVERGENCE_THRESHOLD)
    := by
  have h := conv_loop_aux_iters_spec s v extra PRED_CONV_MAX_ITERS 0 t0 rfl
    (by norm_num [PRED_CONV_MAX_ITERS])
  exact ⟨h.1, h.2.1, h.2.2⟩

/-- **C3 (code bug).**  `choose_best_robot` returns the *index* of the
best group, and `select_armor` stores that index as `selected_robot_id` —
yet its tracking branch compares that very field against
`grouped_armors[i][0].class_id`.  On the spec's acquisition scenario
(empty prior, groups `[{class 3, (0,0,5)}, {class 7, (0,0,3)}]`) the
selected id becomes 1, not the class id 7 the claim requires; and on the
next identical frame the lookup `class_id == selected_robot_id` fails, so
the selector emits empty armors (grace period) although the tracked robot
is plainly visible.  (`MAX_TTL = 1` here; the id is independent of it.) -/
theorem C3_selector_id_is_group_index :
    (select_armor 1 [[⟨3, ⟨0, 0, 5⟩, 0⟩], [⟨7, ⟨0, 0, 3⟩, 0⟩]]
        ⟨0, -1, []⟩).selected_robot_id = 1 ∧
      (1 : ℤ) ≠ 7 ∧
      gHeadClass ([[⟨3, ⟨0, 0, 5⟩, 0⟩], [⟨7, ⟨0, 0, 3⟩, 0⟩]].getD 1 []) = 7 ∧
      (select_armor 1 [[⟨3, ⟨0, 0, 5⟩, 0⟩], [⟨7, ⟨0, 0, 3⟩, 0⟩]]
          (select_armor 1 [[⟨3, ⟨0, 0, 5⟩, 0⟩], [⟨7, ⟨0, 0, 3⟩, 0⟩]]
            ⟨0, -1, []⟩)).selected_armors = [] ∧
      (select_armor 1 [[⟨3, ⟨0, 0, 5⟩, 0⟩], [⟨7, ⟨0, 0, 3⟩, 0⟩]]
          (select_armor 1 [[⟨3, ⟨0, 0, 5⟩, 0⟩], [⟨7, ⟨0, 0, 3⟩, 0⟩]]
            ⟨0, -1, []⟩)).selected_robot_id = 1 := by
  have h1 : select_armor 1 [[⟨3, ⟨0, 0, 5⟩, 0⟩], [⟨7, ⟨0, 0, 3⟩, 0⟩]]
      ⟨0, -1, []⟩ = ⟨1, 1, [⟨7, ⟨0, 0, 3⟩, 0⟩]⟩ := by
    unfold select_armor
    rw [if_neg (by simp), if_pos (by norm_num : (-1 : ℤ) < 0),
      choose_best_robot_scenario]
    rfl
  have hfind : List.findIdx?
      (fun g => gHeadClass g == (1 : ℤ))
      [[(⟨3, ⟨0, 0, 5⟩, 0⟩ : DetectionResult)], [⟨7, ⟨0, 0, 3⟩, 0⟩]]
      = none := rfl
  have h2 : select_armor 1 [[⟨3, ⟨0, 0, 5⟩, 0⟩], [⟨7, ⟨0, 0, 3⟩, 0⟩]]
      ⟨1, 1, [⟨7, ⟨0, 0, 3⟩, 0⟩]⟩ = ⟨1 - 0.02, 1, []⟩ := by
    unfold select_armor
    rw [if_neg (by simp), if_neg (by norm_num : ¬ (1 : ℤ) < 0), hfind]
    rw [if_pos (by norm_num : (1 : ℝ) - 0.02 > 0)]
  rw [h1, h2]
  refine ⟨rfl, by norm_num, rfl, rfl, rfl⟩

/-- **C4.**  `from_one_armor` behaves as specified.  With no valid prior it
seeds `r1 = r2 = DEFAULT_ROBOT_RADIUS` and `yaw = det.yaw_rad`, and places
the centre at `(tx - r·sin(yaw), ty, tz + r·cos(yaw))` with `r` that default
radius.  With a valid prior, the stored yaw is a candidate of
`{prev, prev ± π/2, prev + π}` of minimal wrapped error against
`det.yaw_rad` (shifted winners are stored wrapped to `(-π, π]`, as the spec
prescribes; `prev` wins ties), and the centre offset uses `r2` exactly when
the spec's sector `⌊((wrap_pi(chosen) + π + π/4) mod 2π)/(π/2)⌋` is odd,
`r1` otherwise, applied to `sin/cos` of `det.yaw_rad`. -/
theorem C4_from_one_armor (R : ℝ) (det : DetectionResult)
    (robot : RobotState) :
    ((from_one_armor R det robot false).state.r1 = R ∧
      (from_one_armor R det robot false).state.r2 = R ∧
      (from_one_armor R det robot false).state.yaw = det.yaw_rad ∧
      (from_one_armor R det robot false).state.x
        = det.tvec.x - R * Real.sin det.yaw_rad ∧
      (from_one_armor R det robot false).state.y = det.tvec.y ∧
      (from_one_armor R det robot false).state.z
        = det.tvec.z + R * Real.cos det.yaw_rad) ∧
    (∃ c ∈ [robot.state.yaw, robot.state.yaw + π / 2,
        robot.state.yaw - π / 2, robot.state.yaw + π],
      ((from_one_armor R det robot true).state.yaw = c ∨
        (from_one_armor R det robot true).state.yaw = wrap_pi c) ∧
      ∀ d ∈ [robot.state.yaw, robot.state.yaw + π / 2,
          robot.state.yaw - π / 2, robot.state.yaw + π],
        |wrap_pi (c - det.yaw_rad)| ≤ |wrap_pi (d - det.yaw_rad)|) ∧
    ((from_one_armor R det robot true).state.x
        = det.tvec.x -
          (if ⌊rmod (wrap_pi ((from_one_armor R det robot true).state.yaw)
                + π + π / 4) (2 * π) / (π / 2)⌋ % 2 = 1
           then robot.state.r2 else robot.state.r1)
            * Real.sin det.yaw_rad ∧
      (from_one_armor R det robot true).state.y = det.tvec.y ∧
      (from_one_armor R det robot true).state.z
        = det.tvec.z +
          (if ⌊rmod (wrap_pi ((from_one_armor R det robot true).state.yaw)
                + π + π / 4) (2 * π) / (π / 2)⌋ % 2 = 1
           then robot.state.r2 else robot.state.r1)
            * Real.cos det.yaw_rad) := by
  refine ⟨⟨rfl, rfl, rfl, rfl, rfl, rfl⟩, ?_, ?_, rfl, ?_⟩
  · obtain ⟨c, hcmem, hceq, hcmin⟩ :=
      pick_best_spec robot.state.yaw det.yaw_rad
    refine ⟨c, hcmem, ?_, hcmin⟩
    rw [foa_true_yaw, refine_fst]
    exact hceq
  · rw [foa_true_x, foa_true_yaw, refine_radius_eq]
  · rw [foa_true_z, foa_true_yaw, refine_radius_eq]

end Claims
